import Mathlib

/-!
# jimen0/resolver — a shallow embedding and its verified properties

The Go package `resolver` (files `resolver.go`, `reverse.go`, `zonetransfer.go`)
is embedded as pure Lean functions.  Go `int` values are modelled by `Int`
(no arithmetic in the package can overflow: the only operations are
comparisons, `%`, `+ 1` and `- 1` on small counters), Go strings by `String`,
slices by `List`, and a Go `(value, error)` pair by a Lean pair whose second
component is an `Option Error` (`none` is the nil error).

The library primitives the package calls (`dns.ExchangeContext`, `dns.Fqdn`,
`dns.Transfer.In`, the IPv6 branch of `net.ParseIP`) are parameters of the
embedding, collected in the structure `Env`.
-/

namespace DNSResolver

/-! ## Errors -/

/-- The error values the package can return.  `ErrNoResponse` is the package
level sentinel of `resolver.go` line 21; the others are the `errors.New`
values created in place, and `transport` stands for any error produced by the
DNS library. -/
inductive Error where
  | retriesNegative      -- "number of retries must be higher or equals to 0"
  | noWorkers            -- "at least one worker is needed"
  | noDomains            -- "at least one domain is needed"
  | noServers            -- "at least one DNS server is needed"
  | invalidRecord        -- "invalid record"
  | invalidIP            -- "invalid IP address"
  | nonIPv4              -- "non IPv4 address"
  | ErrNoResponse        -- "no response"
  | transport (msg : String)
  deriving DecidableEq, Repr

/-! ## DNS library types and primitives -/

/-- Decimal rendering `strconv.Itoa` of a non-negative Go `int`. -/
def Itoa (n : Nat) : String := Nat.repr n

/-- The dotted-quad text of the IPv4 address with octets `a`, `b`, `c`, `d`:
what `net.IP.String` returns for an IPv4 address. -/
def dottedQuad (a b c d : Nat) : String :=
  Itoa a ++ "." ++ Itoa b ++ "." ++ Itoa c ++ "." ++ Itoa d

/-- A resource record `dns.RR` of an answer section, by dynamic type.  The
address of a `*dns.A` record is the IPv4 address of its four RDATA octets;
`other` stands for every record type the package does not decode. -/
inductive RR where
  | A (a b c d : Nat)
  | CNAME (Target : String)
  | NS (Ns : String)
  | PTR (Ptr : String)
  | other (rrtype : Nat)
  deriving DecidableEq, Repr

/-- A response message `*dns.Msg`; only its answer section is read. -/
structure Msg where
  Answer : List RR
  deriving DecidableEq, Repr

/-- The question types the package asks for. -/
inductive QType where
  | TypeA | TypeCNAME | TypePTR | TypeNS
  deriving DecidableEq, Repr

/-- The question set by `msg.SetQuestion(name, qtype)`. -/
structure Question where
  Name : String
  Qtype : QType
  deriving DecidableEq, Repr

/-- The pair `(in, err)` returned by `dns.ExchangeContext`: `resp` is the
response message `in` (`none` is nil), `err` the error (`none` is nil). -/
structure Exchanged where
  resp : Option Msg
  err : Option Error
  deriving DecidableEq, Repr

/-- One value `*dns.Envelope` received from the channel of `dns.Transfer.In`. -/
structure Envelope where
  RR : List RR
  Error : Option Error
  deriving DecidableEq, Repr

/-- A Go `net.IP`: a byte slice. -/
abbrev IP := List Nat

/-- The library primitives the package calls.
* `Fqdn` is `dns.Fqdn`.
* `ExchangeContext t q server` is the result of the call
  `dns.ExchangeContext(ctx, msg, server)` made when `t` exchanges have already
  been made by the running `Resolve` call; `q` is the question of `msg`.
* `parseIPv6 s` is what `net.ParseIP` returns for a string whose first
  separator is a colon (`none` is nil).
* `In fqdn addr` is the result of `transfer.In(msg, addr)`: the envelopes the
  returned channel delivers until it is closed, and the error. -/
structure Env where
  Fqdn : String → String
  ExchangeContext : Nat → Question → String → Exchanged
  parseIPv6 : String → Option IP
  In : String → String → List Envelope × Option Error

/-! ## `net.ParseIP` and `IP.To4` (Go standard library) -/

/-- The local variables of the IPv4 text parser of the Go standard library
(`parseIPv4` of package `net/netip`). -/
structure V4State where
  fields : List Nat
  val : Nat
  pos : Nat
  digLen : Nat
  deriving DecidableEq, Repr

/-- The loop of the standard library's `parseIPv4` over the bytes of the
string: the first argument is the byte before the current one (`none` at index
0), the second the bytes from the current index on (so the current byte is the
last one exactly when the list after it is empty).  `none` is a parse error.
A decimal digit extends the current field (a leading zero and a value above
255 are errors); a dot closes the field (an empty field, a dot at either end
and a fifth field are errors); any other byte is an error. -/
def parseIPv4Loop : Option Char → List Char → V4State → Option V4State
  | _, [], st => some st
  | prev, c :: rest, st =>
    if '0' ≤ c ∧ c ≤ '9' then
      if st.digLen = 1 ∧ st.val = 0 then none
      else
        let val := st.val * 10 + c.toNat - '0'.toNat
        if val > 255 then none
        else parseIPv4Loop (some c) rest { st with val := val, digLen := st.digLen + 1 }
    else if c = '.' then
      if prev = none ∨ rest = [] ∨ prev = some '.' then none
      else if st.pos = 3 then none
      else parseIPv4Loop (some c) rest
        { fields := st.fields.set st.pos st.val, val := 0, pos := st.pos + 1, digLen := 0 }
    else none

/-- The 16-byte form of an IPv4 address (`net.IPv4`, `netip.Addr.As16`): the
prefix `00 00 00 00 00 00 00 00 00 00 ff ff` followed by the four octets. -/
def v4InV6 (octets : List Nat) : IP :=
  [0, 0, 0, 0, 0, 0, 0, 0, 0, 0, 0xff, 0xff] ++ octets

/-- The standard library's `parseIPv4` followed by the conversion to 16 bytes:
fewer than four fields is an error, otherwise the last field is stored. -/
def parseIPv4 (s : String) : Option IP :=
  match parseIPv4Loop none s.data { fields := [0, 0, 0, 0], val := 0, pos := 0, digLen := 0 } with
  | none => none
  | some st =>
    if st.pos < 3 then none
    else some (v4InV6 (st.fields.set 3 st.val))

/-- The scan of `net.ParseIP` (`netip.ParseAddr`): the first dot, colon or
percent sign of the string selects the parser; a string with none is not an
address. -/
def parseScan (env : Env) (s : String) : List Char → Option IP
  | [] => none
  | c :: rest =>
    if c = '.' then parseIPv4 s
    else if c = ':' then env.parseIPv6 s
    else if c = '%' then none
    else parseScan env s rest

/-- The function `net.ParseIP`; `none` is the nil result. -/
def ParseIP (env : Env) (s : String) : Option IP :=
  parseScan env s s.data

/-- The method `IP.To4`: a 4-byte slice is returned as is, a 16-byte slice
with the IPv4-in-IPv6 prefix yields its last four bytes, anything else nil. -/
def To4 (ip : IP) : Option IP :=
  if ip.length = 4 then some ip
  else if ip.length = 16 ∧ (ip.take 10).all (fun b => b == 0) ∧ ip.getD 10 0 = 0xff
      ∧ ip.getD 11 0 = 0xff then
    some ((ip.drop 12).take 4)
  else none

/-! ## `reverse` (reverse.go, lines 12-24) -/

/-- The function `reverse` of reverse.go.  `ip[k]` indexes the 16-byte slice
returned by `net.ParseIP`. -/
def reverse (env : Env) (s : String) : String × Option Error :=
  match ParseIP env s with
  | none => ("", some Error.invalidIP)
  | some ip =>
    match To4 ip with
    | none => ("", some Error.nonIPv4)
    | some _ =>
      (Itoa (ip.getD 15 0) ++ "." ++ Itoa (ip.getD 14 0) ++ "." ++ Itoa (ip.getD 13 0) ++ "."
        ++ Itoa (ip.getD 12 0) ++ ".in-addr.arpa.", none)

/-! ## `Resolve` (resolver.go, lines 132-193) -/

/-- Indexing `servers[i]` of a Go slice.  Every use below is of the form
`servers[k % len(servers)]` after the guard `len(servers) == 0` has returned,
so the index is in range; the default value is never produced there. -/
def index (servers : List String) (i : Nat) : String :=
  servers.getD i ""

/-- The `switch record` of resolver.go, lines 141-156: the question of the
query message, or the error returned. -/
def buildQuestion (env : Env) (record host : String) : Except Error Question :=
  if record = "A" then
    .ok { Name := env.Fqdn host, Qtype := QType.TypeA }
  else if record = "CNAME" then
    .ok { Name := env.Fqdn host, Qtype := QType.TypeCNAME }
  else if record = "PTR" then
    match reverse env host with
    | (_, some err) => .error err
    | (h, none) => .ok { Name := env.Fqdn h, Qtype := QType.TypePTR }
  else if record = "NS" then
    .ok { Name := env.Fqdn host, Qtype := QType.TypeNS }
  else
    .error Error.invalidRecord

/-- The retry loop of resolver.go, lines 161-167:
`for err != nil && retries > 0 { in, err = exchange(srv[retries%len(srv)]); if in != nil { break }; retries-- }`.
The first argument is the value of `retries` (the loop runs only while it is
positive), the second the current pair `(in, err)`, the third the servers
queried so far, in order; the result is the final pair and the final list of
servers queried. -/
def retryLoop (env : Env) (msg : Question) (srv : List String) :
    Nat → Exchanged → List String → Exchanged × List String
  | 0, res, sent => (res, sent)
  | retries + 1, res, sent =>
    if res.err.isSome then
      let server := index srv ((retries + 1) % srv.length)
      let res' := env.ExchangeContext sent.length msg server
      if res'.resp.isSome then (res', sent ++ [server])
      else retryLoop env msg srv retries res' (sent ++ [server])
    else (res, sent)

/-- The decoding loop of resolver.go, lines 174-190, over the answer section;
the second argument is the slice `resolution` built so far. -/
def decodeAnswer : List RR → List String → List String
  | [], resolution => resolution
  | RR.A a b c d :: rest, resolution => decodeAnswer rest (resolution ++ [dottedQuad a b c d])
  | RR.CNAME target :: rest, resolution => decodeAnswer rest (resolution ++ [target])
  | RR.NS ns :: rest, resolution => decodeAnswer rest (resolution ++ [ns])
  | RR.PTR ptr :: rest, resolution => decodeAnswer rest (resolution ++ [ptr])
  | RR.other _ :: rest, resolution => decodeAnswer rest resolution

/-- What `Resolve` returns, together with the servers it sent a query to, in
order (`sent` is not a Go value: it records the calls of `dns.ExchangeContext`). -/
structure Resolved where
  dst : List String
  err : Option Error
  sent : List String
  deriving DecidableEq, Repr

/-- The function `Resolve` of resolver.go, lines 132-193. -/
def Resolve (env : Env) (record host : String) (retries : Int) (srv : List String) : Resolved :=
  if srv.length = 0 then
    { dst := [], err := some Error.noServers, sent := [] }
  else
    match buildQuestion env record host with
    | .error err => { dst := [], err := some err, sent := [] }
    | .ok msg =>
      let first := env.ExchangeContext 0 msg (index srv 0)
      let last := retryLoop env msg srv retries.toNat first [index srv 0]
      match last.1.resp with
      | none => { dst := [], err := some Error.ErrNoResponse, sent := last.2 }
      | some m => { dst := decodeAnswer m.Answer [], err := none, sent := last.2 }

/-- An exchange attempt fails when it returns no response message and a
non-nil error. -/
def failing (x : Exchanged) : Prop := x.resp = none ∧ x.err ≠ none

instance (x : Exchanged) : Decidable (failing x) := by
  unfold failing
  exact inferInstance

/-! ## `ZoneTransfer` (zonetransfer.go, lines 10-46) -/

/-- The inner loop of zonetransfer.go, lines 27-42, over the records of one
envelope; the second argument is the slice `resolution` built so far. -/
def transferRecords : List RR → List String → List String
  | [], resolution => resolution
  | RR.A a b c d :: rest, resolution => transferRecords rest (resolution ++ [dottedQuad a b c d])
  | RR.CNAME target :: rest, resolution => transferRecords rest (resolution ++ [target])
  | RR.NS ns :: rest, resolution => transferRecords rest (resolution ++ [ns])
  | RR.PTR ptr :: rest, resolution => transferRecords rest (resolution ++ [ptr])
  | RR.other _ :: rest, resolution => transferRecords rest resolution

/-- The outer loop of zonetransfer.go, lines 22-43, over the envelopes
received: an envelope with an error is skipped. -/
def transferLoop : List Envelope → List String → List String
  | [], resolution => resolution
  | a :: rest, resolution =>
    if a.Error.isSome then transferLoop rest resolution
    else transferLoop rest (transferRecords a.RR resolution)

/-- The function `ZoneTransfer` of zonetransfer.go; the address passed to
`transfer.In` is `fmt.Sprintf("%s:%d", server, port)`. -/
def ZoneTransfer (env : Env) (host server : String) (port : Int) : List String × Option Error :=
  let fqdn := env.Fqdn host
  match env.In fqdn (server ++ ":" ++ toString port) with
  | (_, some err) => ([], some err)
  | (answers, none) => (transferLoop answers [], none)

/-! ## `New` (resolver.go, lines 23-47) -/

/-- The struct `Resolver` of resolver.go, lines 24-31. -/
structure Resolver where
  Record : String
  Retries : Int
  Workers : Int
  deriving DecidableEq, Repr

/-- The function `New` of resolver.go, lines 34-47.  The first component is the
returned pointer (`none` is nil), the second the returned error. -/
def New (record : String) (retries workers : Int) : Option Resolver × Option Error :=
  if retries < 0 then
    (none, some Error.retriesNegative)
  else if workers ≤ 0 then
    (none, some Error.noWorkers)
  else
    (some { Record := record, Retries := retries, Workers := workers }, none)

/-! ## `ResolveList`: the sequential pieces (resolver.go, lines 51-128) -/

/-- The loop of resolver.go, lines 91-94:
`for i := 0; i < r.Retries; i++ { srv = append(srv, servers[(count+i)%len(servers)]); count++ }`.
The first argument counts the iterations still to run (`r.Retries - i`), the
others are the loop variables `i`, `count` and `srv`. -/
def windowLoop (servers : List String) : Nat → Nat → Nat → List String → List String
  | 0, _, _, srv => srv
  | todo + 1, i, count, srv =>
    windowLoop servers todo (i + 1) (count + 1)
      (srv ++ [index servers ((count + i) % servers.length)])

/-- The server list a worker builds for one domain, resolver.go lines 89-94:
`var count int` is declared inside the `for v := range c` body, so it is zero
for every domain; `srv` starts as `[servers[count % len(servers)]]`. -/
def serverWindow (servers : List String) (retries : Int) : List String :=
  let count := 0
  windowLoop servers retries.toNat 0 count [index servers (count % servers.length)]

/-- The clamp of resolver.go, lines 62-64:
`if r.Workers > len(domains) { r.Workers = len(domains) }`. -/
def clampWorkers (workers : Int) (domains : List String) : Int :=
  if workers > (domains.length : Int) then (domains.length : Int) else workers

/-- The outcome of the dispatch loop of resolver.go, lines 111-119: the sends
`chans[k % r.Workers] <- v` performed, in order, as pairs (channel index,
domain), and the error returned early, if any. -/
structure Dispatch where
  sends : List (Int × String)
  err : Option Error
  deriving DecidableEq, Repr

/-- The dispatch loop of resolver.go, lines 111-119.  `poll k` is what the
non-blocking `select` on `errs` yields before the domain at index `k` is sent:
`some e` when a worker's error is received (the loop then returns `e`),
`none` when the `default` branch is taken.  `k` is the index of the domain at
the head of the list. -/
def dispatchLoop (poll : Nat → Option Error) (workers : Int) :
    Nat → List String → List (Int × String) → Dispatch
  | _, [], sends => { sends := sends, err := none }
  | k, v :: rest, sends =>
    match poll k with
    | some e => { sends := sends, err := some e }
    | none => dispatchLoop poll workers (k + 1) rest (sends ++ [((k : Int) % workers, v)])

/-- The dispatcher of `ResolveList` after its two guards: clamp the worker
count, then run the dispatch loop over `domains`. -/
def dispatch (poll : Nat → Option Error) (workers : Int) (domains : List String) : Dispatch :=
  dispatchLoop poll (clampWorkers workers domains) 0 domains []


/-! ## `ResolveList`: the goroutines (resolver.go, lines 51-128)

The dispatcher (the goroutine running `ResolveList`) and the workers
communicate over unbuffered channels, so every send blocks until a receive on
the same channel is ready, and the two proceed together.  The goroutines are
embedded as a transition system: each goroutine is at a program point, and
`next` lists the states one step of one goroutine (or one rendezvous of two)
can lead to.  The consumer of `out` is taken to be always ready to receive, as
the consumer goroutine of `TestResolveList` is.  `r.Workers` is at least one
here, which `New` guarantees. -/

/-- What the body of the worker loop does with one domain, resolver.go lines
96-106: a hard error is sent to `errs`, `ErrNoResponse` and an empty result are
skipped, a non-empty result is sent to `out`. -/
inductive Outcome where
  | hard (err : Error)
  | soft
  | empty
  | found (dst : List String)
  deriving DecidableEq, Repr

/-- The outcome of resolver.go lines 89-106 for the domain `v`: the call
`Resolve(ctx, r.Record, v, r.Retries, srv)` with the server window of the
worker, and the case distinction on its result. -/
def workerOutcome (env : Env) (r : Resolver) (servers : List String) (v : String) : Outcome :=
  let srv := serverWindow servers r.Retries
  let res := Resolve env r.Record v r.Retries srv
  match res.err with
  | some err => if err = Error.ErrNoResponse then Outcome.soft else Outcome.hard err
  | none => if res.dst.length > 0 then Outcome.found res.dst else Outcome.empty

/-- The program point of a worker goroutine (resolver.go lines 77-108). -/
inductive Worker where
  | start                                        -- at the `select` of lines 80-84
  | receiving                                    -- at `for v := range c`, line 86
  | resolving (v : String)                       -- lines 89-96, domain `v` received
  | sendingErr (err : Error)                     -- blocked at `errs <- err`, line 99
  | sendingOut (v : String) (dst : List String)  -- at `out <- result{...}`, line 105
  | exited                                       -- returned; `wg.Done()` has run
  | panicked                                     -- sent on the closed channel `out`
  deriving DecidableEq, Repr

/-- The program point of the goroutine running `ResolveList` after its guards
(resolver.go lines 111-127). -/
inductive Dispatcher where
  | selecting (k : Nat)             -- at the `select` of lines 112-117, domain index `k`
  | sending (k : Nat)               -- blocked at `chans[k%r.Workers] <- v`, line 118
  | signalling (err : Error)        -- blocked at `done <- struct{}{}`, line 114
  | waiting                         -- worker channels closed, at `wg.Wait()`, line 125
  | returned (err : Option Error)   -- returned; the deferred `close(out)` has run
  deriving DecidableEq, Repr

/-- A state of one `ResolveList` call: the program points of the dispatcher and
of the workers, the number of times `close(out)` has run, and the results the
consumer has received from `out`. -/
structure Machine where
  dispatcher : Dispatcher
  workers : List Worker
  closes : Nat
  results : List (String × List String)
  deriving DecidableEq, Repr

/-- The data of one `ResolveList` call that the goroutines read: the domains,
the clamped worker count and the outcome of resolving each domain. -/
structure Config where
  domains : List String
  workers : Nat
  outcome : String → Outcome

/-- The state in which `ResolveList` starts its dispatch loop, or in which it
has returned from one of its guards (resolver.go lines 52-74); the deferred
`close(out)` runs on every return. -/
def ResolveListStart (r : Resolver) (domains servers : List String) : Machine :=
  if domains.length = 0 then
    { dispatcher := Dispatcher.returned (some Error.noDomains), workers := [], closes := 1,
      results := [] }
  else if servers.length = 0 then
    { dispatcher := Dispatcher.returned (some Error.noServers), workers := [], closes := 1,
      results := [] }
  else
    { dispatcher := Dispatcher.selecting 0,
      workers := List.replicate (clampWorkers r.Workers domains).toNat Worker.start,
      closes := 0, results := [] }

/-- The configuration of a `ResolveList` call that passed the guards. -/
def ResolveListConfig (env : Env) (r : Resolver) (domains servers : List String) : Config where
  domains := domains
  workers := (clampWorkers r.Workers domains).toNat
  outcome := workerOutcome env r servers

/-- The steps of worker `i`, which is at program point `wk`.
* At `start` the `select` receives from `done` when the dispatcher is blocked
  sending on it (the worker returns and the dispatcher returns its error),
  and takes the `default` branch otherwise.
* At `receiving` the worker takes the domain the dispatcher is blocked sending
  to its channel (the dispatcher moves to the next `select`, or closes the
  worker channels and waits when that was the last domain), or leaves the loop
  when its channel is closed.
* At `resolving` the call of `Resolve` decides what is sent.
* At `sendingErr` the send proceeds only when the dispatcher is at its
  `select`, the only place where `errs` is received from.
* At `sendingOut` the consumer receives the result, unless `out` is closed. -/
def workerSteps (cfg : Config) (s : Machine) (i : Nat) : Worker → List Machine
  | Worker.start =>
    match s.dispatcher with
    | Dispatcher.signalling err =>
      [{ s with dispatcher := Dispatcher.returned (some err),
                workers := s.workers.set i Worker.exited, closes := s.closes + 1 }]
    | _ => [{ s with workers := s.workers.set i Worker.receiving }]
  | Worker.receiving =>
    match s.dispatcher with
    | Dispatcher.sending k =>
      if k % cfg.workers = i then
        [{ s with dispatcher :=
                    if k + 1 < cfg.domains.length then Dispatcher.selecting (k + 1)
                    else Dispatcher.waiting,
                  workers := s.workers.set i (Worker.resolving (cfg.domains.getD k "")) }]
      else []
    | Dispatcher.waiting => [{ s with workers := s.workers.set i Worker.exited }]
    | Dispatcher.returned none => [{ s with workers := s.workers.set i Worker.exited }]
    | _ => []
  | Worker.resolving v =>
    match cfg.outcome v with
    | Outcome.hard err => [{ s with workers := s.workers.set i (Worker.sendingErr err) }]
    | Outcome.soft => [{ s with workers := s.workers.set i Worker.receiving }]
    | Outcome.empty => [{ s with workers := s.workers.set i Worker.receiving }]
    | Outcome.found dst => [{ s with workers := s.workers.set i (Worker.sendingOut v dst) }]
  | Worker.sendingErr err =>
    match s.dispatcher with
    | Dispatcher.selecting _ =>
      [{ s with dispatcher := Dispatcher.signalling err,
                workers := s.workers.set i Worker.receiving }]
    | _ => []
  | Worker.sendingOut v dst =>
    if s.closes > 0 then [{ s with workers := s.workers.set i Worker.panicked }]
    else [{ s with workers := s.workers.set i Worker.receiving,
                   results := s.results ++ [(v, dst)] }]
  | Worker.exited => []
  | Worker.panicked => []

/-- The steps the dispatcher takes alone: the `default` branch of its `select`
when no worker is blocked sending on `errs`, and the return from `wg.Wait()`
once every worker has returned. -/
def dispatcherSteps (s : Machine) : List Machine :=
  match s.dispatcher with
  | Dispatcher.selecting k =>
    if s.workers.any (fun wk => match wk with
        | Worker.sendingErr _ => true
        | _ => false) then []
    else [{ s with dispatcher := Dispatcher.sending k }]
  | Dispatcher.waiting =>
    if s.workers.all (fun wk => wk == Worker.exited) then
      [{ s with dispatcher := Dispatcher.returned none, closes := s.closes + 1 }]
    else []
  | _ => []

/-- All states reachable in one step; a panic ends the program. -/
def next (cfg : Config) (s : Machine) : List Machine :=
  if s.workers.any (fun wk => wk == Worker.panicked) then []
  else dispatcherSteps s ++ (s.workers.enum.map (fun p => workerSteps cfg s p.1 p.2)).flatten

/-- The states reachable from `s` in any number of steps, under any
interleaving of the goroutines. -/
inductive Reachable (cfg : Config) (s : Machine) : Machine → Prop where
  | here : Reachable cfg s s
  | step {t u : Machine} : Reachable cfg s t → u ∈ next cfg t → Reachable cfg s u

/-- Whether `ResolveList` has returned. -/
def hasReturned (s : Machine) : Bool :=
  match s.dispatcher with
  | Dispatcher.returned _ => true
  | _ => false

/-- Breadth-first exploration: `n` rounds of adding the successors of the
states found so far. -/
def explore (cfg : Config) : Nat → List Machine → List Machine
  | 0, seen => seen
  | n + 1, seen =>
    explore cfg n (seen ++ ((seen.map (next cfg)).flatten.filter (fun t => t ∉ seen)).eraseDups)

/-- The rotation window as the specification words it: for dispatch counter
`c` and retry budget `r`, the servers at indices `(c + i) mod n` for
`i = 0, ..., r`.  The source has no dispatch counter; this definition exists
only to be compared with `serverWindow`. -/
def specRotationWindow (servers : List String) (r c : Nat) : List String :=
  (List.range (r + 1)).map (fun i => index servers ((c + i) % servers.length))

/-- The decoding of one answer record as the specification words it: an A
record yields its dotted-quad string, a CNAME, NS or PTR record its target
name, any other record type is skipped (`none`). -/
def specDecode : RR → Option String
  | RR.A a b c d => some (dottedQuad a b c d)
  | RR.CNAME target => some target
  | RR.NS ns => some ns
  | RR.PTR ptr => some ptr
  | RR.other _ => none

/-! ## Environments used in the worked examples -/

/-- A stand-in for `dns.Fqdn` on plain names: a final dot is appended unless
the name already ends with one. -/
def fqdn (s : String) : String :=
  if s.data.getLast? = some '.' then s else s ++ "."

/-- An environment whose transfer session opens and delivers two envelopes: the
first carries an error, the second three decodable records and an SOA record
(type 6). -/
def axfrEnv : Env where
  Fqdn := fqdn
  ExchangeContext := fun _ _ _ => { resp := none, err := some (Error.transport "i/o timeout") }
  parseIPv6 := fun _ => none
  In := fun _ _ =>
    ([{ RR := [RR.A 127 0 0 1], Error := some (Error.transport "bad xfr rcode") },
      { RR := [RR.other 6, RR.A 5 196 105 14, RR.NS "nsztm1.digi.ninja.",
               RR.CNAME "www.zonetransfer.me."], Error := none }], none)


/-- An environment in which every exchange times out: no response, an error. -/
def deadEnv : Env where
  Fqdn := fqdn
  ExchangeContext := fun _ _ _ => { resp := none, err := some (Error.transport "i/o timeout") }
  parseIPv6 := fun _ => none
  In := fun _ _ => ([], none)

/-- An environment in which the server `127.0.0.1:0` never answers and every
other server answers with one CNAME record and no error. -/
def failoverEnv : Env where
  Fqdn := fqdn
  ExchangeContext := fun _ _ server =>
    if server = "127.0.0.1:0" then
      { resp := none, err := some (Error.transport "connection refused") }
    else
      { resp := some { Answer := [RR.CNAME "github.map.fastly.net."] }, err := none }
  parseIPv6 := fun _ => none
  In := fun _ _ => ([], none)

/-- An environment in which the first exchange returns a response message
together with an error and every later exchange times out. -/
def flakyEnv : Env where
  Fqdn := fqdn
  ExchangeContext := fun t _ _ =>
    if t = 0 then
      { resp := some { Answer := [RR.A 45 33 32 156] }, err := some (Error.transport "bad rdata") }
    else
      { resp := none, err := some (Error.transport "i/o timeout") }
  parseIPv6 := fun _ => none
  In := fun _ _ => ([], none)

/-- An environment in which every exchange returns a response message together
with an error (a message the library could not unpack completely). -/
def malformedEnv : Env where
  Fqdn := fqdn
  ExchangeContext := fun _ _ _ =>
    { resp := some { Answer := [RR.CNAME "github.map.fastly.net."] },
      err := some (Error.transport "bad rdata") }
  parseIPv6 := fun _ => none
  In := fun _ _ => ([], none)

/-- The call `r.ResolveList(ctx, ["scanme.nmap.org"], ["8.8.8.8:53"], out)` with
`r = &Resolver{Record: "TXT", Retries: 0, Workers: 1}`: the record is one
`Resolve` rejects with the error "invalid record". -/
def hardErrorConfig : Config :=
  ResolveListConfig deadEnv { Record := "TXT", Retries := 0, Workers := 1 }
    ["scanme.nmap.org"] ["8.8.8.8:53"]

/-- The state in which the call of `hardErrorConfig` starts dispatching. -/
def hardErrorStart : Machine :=
  ResolveListStart { Record := "TXT", Retries := 0, Workers := 1 }
    ["scanme.nmap.org"] ["8.8.8.8:53"]

/-- The call `r.ResolveList(ctx, ["hub.github.com"], ["8.8.8.8:53"], out)` with
`r = &Resolver{Record: "CNAME", Retries: 0, Workers: 1}` against a server that
answers. -/
def successConfig : Config :=
  ResolveListConfig failoverEnv { Record := "CNAME", Retries := 0, Workers := 1 }
    ["hub.github.com"] ["8.8.8.8:53"]

/-- The state in which the call of `successConfig` starts dispatching. -/
def successStart : Machine :=
  ResolveListStart { Record := "CNAME", Retries := 0, Workers := 1 }
    ["hub.github.com"] ["8.8.8.8:53"]

/-! ## Properties of `New` -/

/-- C8: `New` returns an error together with a nil resolver exactly when
`retries < 0` or `workers <= 0`; in every other case it returns a nil error and
the resolver whose three fields are the arguments; `retries = 0` with
`workers = 1` is accepted. -/
theorem New_validation (record : String) (retries workers : Int) :
    (((New record retries workers).1 = none ∧ (New record retries workers).2 ≠ none)
        ↔ (retries < 0 ∨ workers ≤ 0))
    ∧ (New record retries workers
          = (some { Record := record, Retries := retries, Workers := workers }, none)
        ↔ ¬ (retries < 0 ∨ workers ≤ 0))
    ∧ New record 0 1 = (some { Record := record, Retries := 0, Workers := 1 }, none) := by
  refine ⟨?_, ?_, ?_⟩
  · unfold New
    by_cases h1 : retries < 0
    · simp [h1]
    · by_cases h2 : workers ≤ 0
      · simp [h1, h2]
      · simp [h1, h2]
  · unfold New
    by_cases h1 : retries < 0
    · simp [h1]
    · by_cases h2 : workers ≤ 0
      · simp [h1, h2]
      · simp [h1, h2]
  · simp [New]

/-! ## Properties of the server window of `ResolveList` -/

theorem windowLoop_eq (servers : List String) (todo : Nat) :
    ∀ (i : Nat) (srv : List String),
      windowLoop servers todo i i srv
        = srv ++ (List.range todo).map
            (fun j => index servers ((2 * (i + j)) % servers.length)) := by
  induction todo with
  | zero => intro i srv; simp [windowLoop]
  | succ n ih =>
    intro i srv
    rw [windowLoop, ih (i + 1), List.range_succ_eq_map, List.map_cons, List.map_map,
      List.append_assoc]
    congr 1
    simp only [List.singleton_append, Nat.add_zero, List.cons.injEq]
    refine ⟨by rw [Nat.two_mul], ?_⟩
    apply List.map_congr_left
    intro j _
    simp only [Function.comp, Nat.succ_eq_add_one]
    congr 2
    omega

/-- What the loop of resolver.go lines 89-94 computes: `servers[0]` followed, for
`i = 0, ..., r - 1`, by `servers[2 i mod n]`; it is the same for every domain. -/
theorem serverWindow_eq (servers : List String) (r : Nat) :
    serverWindow servers (r : Int)
      = index servers 0
          :: (List.range r).map (fun i => index servers ((2 * i) % servers.length)) := by
  unfold serverWindow
  simp only [Int.toNat_ofNat, Nat.zero_mod]
  rw [windowLoop_eq]
  simp

/-- C1 (the code departs from the claim): for servers `[a, b]` and one retry
the worker passes `[a, a]` to `Resolve` for every domain, whereas the rotation
window of the claim is `[a, b]` at counter 0 and `[b, a]` at counter 1; no
counter value makes the two agree, and the window of the code always starts at
`servers[0]`. -/
theorem serverWindow_not_rotating :
    serverWindow ["a", "b"] 1 = ["a", "a"]
    ∧ specRotationWindow ["a", "b"] 1 0 = ["a", "b"]
    ∧ specRotationWindow ["a", "b"] 1 1 = ["b", "a"]
    ∧ (∀ c : Nat, serverWindow ["a", "b"] 1 ≠ specRotationWindow ["a", "b"] 1 c)
    ∧ (∀ (servers : List String) (r : Nat),
        (serverWindow servers (r : Int)).head? = some (index servers 0)) := by
  refine ⟨by decide, by decide, by decide, ?_, ?_⟩
  · intro c
    have h : serverWindow ["a", "b"] 1 = ["a", "a"] := by decide
    rw [h]
    rcases Nat.mod_two_eq_zero_or_one c with h0 | h1
    · have h2 : (c + 1) % 2 = 1 := by omega
      simp [specRotationWindow, List.range_succ, h0, h2, index]
    · have h2 : (c + 1) % 2 = 0 := by omega
      simp [specRotationWindow, List.range_succ, h1, h2, index]
  · intro servers r
    rw [serverWindow_eq]
    rfl

/-! ## Properties of the dispatcher of `ResolveList` -/

theorem dispatchLoop_eq (poll : Nat → Option Error) (workers : Int) (domains : List String) :
    ∀ (k : Nat) (sends : List (Int × String)),
      (∀ i, i < domains.length → poll (k + i) = none) →
      dispatchLoop poll workers k domains sends
        = { sends := sends ++ (domains.enumFrom k).map (fun p => ((p.1 : Int) % workers, p.2)),
            err := none } := by
  induction domains with
  | nil => intro k sends _; simp [dispatchLoop]
  | cons v rest ih =>
    intro k sends h
    have h0 : poll k = none := by simpa using h 0 (by simp)
    rw [dispatchLoop, h0]
    simp only
    rw [ih (k + 1) _ (fun i hi => by
      have := h (i + 1) (by simpa using hi)
      rwa [show k + 1 + i = k + (i + 1) by omega])]
    simp

/-- C2: for `d >= 1` domains and `w >= 1` configured workers the effective
worker count is `min w d` (so `d` when `w > d`); when no error arrives during
dispatch, the dispatcher returns no error and sends the domain at index `k` to
worker `k mod min w d` (a count of at least one), for every `k < d`, in order;
and every worker
`0 <= j < min w d` is sent at least one domain. -/
theorem dispatch_round_robin (poll : Nat → Option Error) (w : Int) (domains : List String)
    (hd : 1 ≤ domains.length) (hw : 1 ≤ w)
    (hpoll : ∀ k, k < domains.length → poll k = none) :
    clampWorkers w domains = min w (domains.length : Int)
    ∧ 1 ≤ clampWorkers w domains
    ∧ (w > (domains.length : Int) → clampWorkers w domains = (domains.length : Int))
    ∧ (dispatch poll w domains).err = none
    ∧ (dispatch poll w domains).sends
        = domains.enum.map (fun p => ((p.1 : Int) % min w (domains.length : Int), p.2))
    ∧ (∀ j : Int, 0 ≤ j → j < min w (domains.length : Int) →
        ∃ v, (j, v) ∈ (dispatch poll w domains).sends) := by
  have hclamp : clampWorkers w domains = min w (domains.length : Int) := by
    unfold clampWorkers
    split_ifs with h
    · exact (min_eq_right (le_of_lt h)).symm
    · exact (min_eq_left (not_lt.mp h)).symm
  have hrun : dispatch poll w domains
      = { sends := domains.enum.map (fun p => ((p.1 : Int) % min w (domains.length : Int), p.2)),
          err := none } := by
    unfold dispatch
    rw [dispatchLoop_eq poll _ domains 0 [] (fun i hi => by simpa using hpoll i hi), hclamp]
    simp [List.enum]
  refine ⟨hclamp, ?_, ?_, ?_, ?_, ?_⟩
  · rw [hclamp]
    exact le_min hw (by exact_mod_cast hd)
  · intro h
    rw [hclamp]
    exact min_eq_right (le_of_lt h)
  · rw [hrun]
  · rw [hrun]
  · intro j hj0 hj
    rw [hrun]
    have hjd : j.toNat < domains.length := by
      have : j < (domains.length : Int) := lt_of_lt_of_le hj (min_le_right _ _)
      omega
    refine ⟨domains[j.toNat], ?_⟩
    simp only [List.mem_map]
    refine ⟨(j.toNat, domains[j.toNat]), ?_, ?_⟩
    · rw [List.mk_mem_enum_iff_getElem?]
      exact List.getElem?_eq_getElem hjd
    · have hcast : ((j.toNat : Nat) : Int) = j := Int.toNat_of_nonneg hj0
      simp only [hcast, Prod.mk.injEq, and_true]
      exact Int.emod_eq_of_lt hj0 hj

/-- C2 witness: two workers configured for one domain, as in the test "more
workers than domains". -/
theorem dispatch_round_robin_witness :
    clampWorkers 2 ["hub.github.com"] = min 2 ((["hub.github.com"].length : Nat) : Int)
    ∧ 1 ≤ clampWorkers 2 ["hub.github.com"]
    ∧ ((2 : Int) > ((["hub.github.com"].length : Nat) : Int) →
        clampWorkers 2 ["hub.github.com"] = ((["hub.github.com"].length : Nat) : Int))
    ∧ (dispatch (fun _ => none) 2 ["hub.github.com"]).err = none
    ∧ (dispatch (fun _ => none) 2 ["hub.github.com"]).sends
        = ["hub.github.com"].enum.map
            (fun p => ((p.1 : Int) % min 2 ((["hub.github.com"].length : Nat) : Int), p.2))
    ∧ (∀ j : Int, 0 ≤ j → j < min 2 ((["hub.github.com"].length : Nat) : Int) →
        ∃ v, (j, v) ∈ (dispatch (fun _ => none) 2 ["hub.github.com"]).sends) :=
  dispatch_round_robin (fun _ => none) 2 ["hub.github.com"] (by decide) (by decide)
    (fun _ _ => rfl)

/-! ## Properties of `reverse` -/

theorem digitChar_facts : ∀ k < 10, ('0' ≤ Nat.digitChar k ∧ Nat.digitChar k ≤ '9')
    ∧ (Nat.digitChar k).toNat = k + 48 ∧ Nat.digitChar k ≠ '.' ∧ Nat.digitChar k ≠ ':'
    ∧ Nat.digitChar k ≠ '%' := by
  decide

set_option maxRecDepth 100000 in
theorem repr_shape : ∀ a < 256, (Nat.repr a).data =
    if a < 10 then [Nat.digitChar a]
    else if a < 100 then [Nat.digitChar (a / 10), Nat.digitChar (a % 10)]
    else [Nat.digitChar (a / 100), Nat.digitChar (a / 10 % 10), Nat.digitChar (a % 10)] := by
  decide

theorem repr_cons (a : Nat) (h : a < 256) : ∃ c cs, (Nat.repr a).data = c :: cs := by
  rw [repr_shape a h]
  split_ifs <;> exact ⟨_, _, rfl⟩

theorem digit_step (k : Nat) (hk : k < 10) (prev : Option Char) (rest : List Char) (st : V4State)
    (h1 : ¬ (st.digLen = 1 ∧ st.val = 0)) (h2 : st.val * 10 + k ≤ 255) :
    parseIPv4Loop prev (Nat.digitChar k :: rest) st
      = parseIPv4Loop (some (Nat.digitChar k)) rest
          { st with val := st.val * 10 + k, digLen := st.digLen + 1 } := by
  obtain ⟨hd, hn, _⟩ := digitChar_facts k hk
  have h3 : ¬ (st.val * 10 + (k + 48) - 48 > 255) := by omega
  have h4 : st.val * 10 + (k + 48) - 48 = st.val * 10 + k := by omega
  have h5 : ¬ (st.val * 10 + k > 255) := by omega
  rw [parseIPv4Loop]
  simp only [hd, hn, h1, if_true, if_false, and_self, h3, h4, h5, Char.reduceToNat]

theorem dot_step (p : Char) (hp : p ≠ '.') (c : Char) (rest : List Char) (st : V4State)
    (h : st.pos ≠ 3) :
    parseIPv4Loop (some p) ('.' :: c :: rest) st
      = parseIPv4Loop (some '.') (c :: rest)
          { fields := st.fields.set st.pos st.val, val := 0, pos := st.pos + 1, digLen := 0 } := by
  rw [parseIPv4Loop]
  have h0 : ¬ ('0' ≤ '.' ∧ '.' ≤ '9') := by decide
  simp [h0, h, hp]

theorem loop_octet (a : Nat) (h : a < 256) (prev : Option Char) (fields : List Nat) (pos : Nat)
    (rest : List Char) :
    ∃ p n, p ≠ '.' ∧ parseIPv4Loop prev ((Nat.repr a).data ++ rest) ⟨fields, 0, pos, 0⟩
      = parseIPv4Loop (some p) rest ⟨fields, a, pos, n⟩ := by
  rw [repr_shape a h]
  by_cases h10 : a < 10
  · rw [if_pos h10]
    refine ⟨Nat.digitChar a, 1, (digitChar_facts a h10).2.2.1, ?_⟩
    rw [List.singleton_append, digit_step a h10 _ _ _ (by simp) (by simp; omega)]
    simp
  · rw [if_neg h10]
    by_cases h100 : a < 100
    · rw [if_pos h100]
      have hq : a / 10 < 10 := by omega
      have hr : a % 10 < 10 := by omega
      refine ⟨Nat.digitChar (a % 10), 2, (digitChar_facts _ hr).2.2.1, ?_⟩
      rw [List.cons_append, List.singleton_append, digit_step _ hq _ _ _ (by simp) (by simp; omega),
        digit_step _ hr _ _ _ (by simp; omega) (by simp; omega)]
      have e : (0 * 10 + a / 10) * 10 + a % 10 = a := by omega
      show parseIPv4Loop _ rest ⟨fields, (0 * 10 + a / 10) * 10 + a % 10, pos, 0 + 1 + 1⟩ = _
      rw [e]
    · rw [if_neg h100]
      have hq : a / 100 < 10 := by omega
      have hm : a / 10 % 10 < 10 := by omega
      have hr : a % 10 < 10 := by omega
      refine ⟨Nat.digitChar (a % 10), 3, (digitChar_facts _ hr).2.2.1, ?_⟩
      rw [List.cons_append, List.cons_append, List.singleton_append,
        digit_step _ hq _ _ _ (by simp) (by simp; omega),
        digit_step _ hm _ _ _ (by simp; omega) (by simp; omega),
        digit_step _ hr _ _ _ (by simp) (by simp; omega)]
      have e : ((0 * 10 + a / 100) * 10 + a / 10 % 10) * 10 + a % 10 = a := by omega
      show parseIPv4Loop _ rest
        ⟨fields, ((0 * 10 + a / 100) * 10 + a / 10 % 10) * 10 + a % 10, pos, 0 + 1 + 1 + 1⟩ = _
      rw [e]

theorem dot_octet (b : Nat) (h : b < 256) (p : Char) (hp : p ≠ '.') (fields : List Nat)
    (v pos n : Nat) (hpos : pos ≠ 3) (rest : List Char) :
    ∃ q m, q ≠ '.' ∧ parseIPv4Loop (some p) ('.' :: ((Nat.repr b).data ++ rest)) ⟨fields, v, pos, n⟩
      = parseIPv4Loop (some q) rest ⟨fields.set pos v, b, pos + 1, m⟩ := by
  obtain ⟨c, cs, hc⟩ := repr_cons b h
  obtain ⟨q, m, hq, hrun⟩ := loop_octet b h (some '.') (fields.set pos v) (pos + 1) rest
  refine ⟨q, m, hq, ?_⟩
  rw [← hrun, hc, List.cons_append, dot_step p hp c (cs ++ rest) ⟨fields, v, pos, n⟩ hpos]

theorem scan_octet (env : Env) (s : String) (a : Nat) (h : a < 256) (rest : List Char) :
    parseScan env s ((Nat.repr a).data ++ '.' :: rest) = parseIPv4 s := by
  have hs : ∀ k, k < 10 → ∀ l, parseScan env s (Nat.digitChar k :: l) = parseScan env s l := by
    intro k hk l
    obtain ⟨_, _, h1, h2, h3⟩ := digitChar_facts k hk
    rw [parseScan]
    simp [h1, h2, h3]
  have hdot : parseScan env s ('.' :: rest) = parseIPv4 s := by
    rw [parseScan]
    simp
  rw [repr_shape a h]
  split_ifs
  · rw [List.singleton_append, hs _ (by omega), hdot]
  · rw [List.cons_append, List.singleton_append, hs _ (by omega), hs _ (by omega), hdot]
  · rw [List.cons_append, List.cons_append, List.singleton_append, hs _ (by omega),
      hs _ (by omega), hs _ (by omega), hdot]

theorem dottedQuad_data (a b c d : Nat) :
    (dottedQuad a b c d).data
      = (Nat.repr a).data ++ '.' :: ((Nat.repr b).data ++ '.' :: ((Nat.repr c).data
          ++ '.' :: ((Nat.repr d).data ++ []))) := by
  simp [dottedQuad, Itoa, String.data_append]

theorem parseIPv4_dottedQuad (a b c d : Nat) (ha : a < 256) (hb : b < 256) (hc : c < 256)
    (hd : d < 256) : parseIPv4 (dottedQuad a b c d) = some (v4InV6 [a, b, c, d]) := by
  unfold parseIPv4
  rw [dottedQuad_data]
  obtain ⟨p1, n1, hp1, e1⟩ := loop_octet a ha none [0, 0, 0, 0] 0
    ('.' :: ((Nat.repr b).data ++ '.' :: ((Nat.repr c).data ++ '.' :: ((Nat.repr d).data ++ []))))
  obtain ⟨p2, n2, hp2, e2⟩ := dot_octet b hb p1 hp1 [0, 0, 0, 0] a 0 n1 (by decide)
    ('.' :: ((Nat.repr c).data ++ '.' :: ((Nat.repr d).data ++ [])))
  obtain ⟨p3, n3, hp3, e3⟩ := dot_octet c hc p2 hp2 ([0, 0, 0, 0].set 0 a) b (0 + 1) n2 (by decide)
    ('.' :: ((Nat.repr d).data ++ []))
  obtain ⟨p4, n4, _, e4⟩ := dot_octet d hd p3 hp3 (([0, 0, 0, 0].set 0 a).set (0 + 1) b) c
    (0 + 1 + 1) n3 (by decide) []
  rw [e1, e2, e3, e4, parseIPv4Loop]
  simp

theorem ParseIP_dottedQuad (env : Env) (a b c d : Nat) (ha : a < 256) (hb : b < 256)
    (hc : c < 256) (hd : d < 256) :
    ParseIP env (dottedQuad a b c d) = some (v4InV6 [a, b, c, d]) := by
  unfold ParseIP
  rw [dottedQuad_data, scan_octet env _ a ha, parseIPv4_dottedQuad a b c d ha hb hc hd]

/-- C10: for all octets `a`, `b`, `c`, `d` in `0..255`, `reverse` applied to the
dotted-quad string `a.b.c.d` returns a nil error and the string
`d.c.b.a.in-addr.arpa.`. -/
theorem reverse_dottedQuad (env : Env) (a b c d : Nat) (ha : a < 256) (hb : b < 256)
    (hc : c < 256) (hd : d < 256) :
    reverse env (dottedQuad a b c d)
      = (Itoa d ++ "." ++ Itoa c ++ "." ++ Itoa b ++ "." ++ Itoa a ++ ".in-addr.arpa.", none) := by
  unfold reverse
  rw [ParseIP_dottedQuad env a b c d ha hb hc hd]
  simp [To4, v4InV6]

/-- C10 witness: `reverse("8.8.8.8") = "8.8.8.8.in-addr.arpa."`, the case of
the test "valid IPv4". -/
theorem reverse_dottedQuad_witness :
    reverse deadEnv "8.8.8.8" = ("8.8.8.8.in-addr.arpa.", none) :=
  reverse_dottedQuad deadEnv 8 8 8 8 (by decide) (by decide) (by decide) (by decide)

/-! ## Properties of the answer decoding and of `ZoneTransfer` -/

theorem decodeAnswer_eq (rrs : List RR) :
    ∀ resolution, decodeAnswer rrs resolution = resolution ++ rrs.filterMap specDecode := by
  induction rrs with
  | nil => intro resolution; simp [decodeAnswer]
  | cons rr rest ih =>
    intro resolution
    cases rr <;> simp [decodeAnswer, specDecode, ih]

theorem transferRecords_eq (rrs : List RR) :
    ∀ resolution, transferRecords rrs resolution = resolution ++ rrs.filterMap specDecode := by
  induction rrs with
  | nil => intro resolution; simp [transferRecords]
  | cons rr rest ih =>
    intro resolution
    cases rr <;> simp [transferRecords, specDecode, ih]

theorem transferLoop_eq (answers : List Envelope) :
    ∀ resolution, transferLoop answers resolution
      = resolution ++ ((answers.filter (fun a => a.Error.isNone)).map
          (fun a => a.RR.filterMap specDecode)).flatten := by
  induction answers with
  | nil => intro resolution; simp [transferLoop]
  | cons a rest ih =>
    intro resolution
    rw [transferLoop]
    cases h : a.Error with
    | none => simp [h, ih, transferRecords_eq, List.filter_cons]
    | some e => simp [h, ih, List.filter_cons]

/-- C9: when the transfer session opens without error and delivers the
envelopes `answers`, `ZoneTransfer` returns a nil error and the concatenation,
in arrival order, of the decoded records of exactly the envelopes that carry no
error; a record is decoded as the specification says (A: dotted quad,
CNAME/NS/PTR: target name, others skipped), which is also the decoding `Resolve`
applies to the answer section of a response. -/
theorem ZoneTransfer_flattens (env : Env) (host server : String) (port : Int)
    (answers : List Envelope)
    (hopen : env.In (env.Fqdn host) (server ++ ":" ++ toString port) = (answers, none)) :
    ZoneTransfer env host server port
      = (((answers.filter (fun a => a.Error.isNone)).map
            (fun a => a.RR.filterMap specDecode)).flatten, none)
    ∧ (∀ rrs : List RR, transferRecords rrs [] = decodeAnswer rrs [])
    ∧ (∀ rrs : List RR, decodeAnswer rrs [] = rrs.filterMap specDecode) := by
  refine ⟨?_, ?_, ?_⟩
  · unfold ZoneTransfer
    simp only [hopen]
    rw [transferLoop_eq]
    simp
  · intro rrs
    rw [transferRecords_eq, decodeAnswer_eq]
  · intro rrs
    rw [decodeAnswer_eq]
    simp

/-- C9 witness: a session delivering one envelope with an error and one with
three decodable records returns exactly the three decoded values, in order. -/
theorem ZoneTransfer_flattens_witness :
    ZoneTransfer axfrEnv "zonetransfer.me" "nsztm1.digi.ninja." 53
      = (["5.196.105.14", "nsztm1.digi.ninja.", "www.zonetransfer.me."], none) :=
  (ZoneTransfer_flattens axfrEnv "zonetransfer.me" "nsztm1.digi.ninja." 53 _ rfl).1

/-! ## Properties of the retry loop of `Resolve` -/

theorem retryLoop_sent_extends (env : Env) (q : Question) (srv : List String) :
    ∀ (n : Nat) (res : Exchanged) (sent : List String),
      ∃ tail, (retryLoop env q srv n res sent).2 = sent ++ tail := by
  intro n
  induction n with
  | zero => intro res sent; exact ⟨[], by simp [retryLoop]⟩
  | succ n ih =>
    intro res sent
    rw [retryLoop]
    by_cases herr : res.err.isSome
    · simp only [herr, if_true]
      split_ifs
      · exact ⟨_, rfl⟩
      · obtain ⟨tail, ht⟩ := ih (env.ExchangeContext sent.length q
          (index srv ((n + 1) % srv.length))) (sent ++ [index srv ((n + 1) % srv.length)])
        exact ⟨index srv ((n + 1) % srv.length) :: tail, by rw [ht]; simp⟩
    · simp only [herr]
      exact ⟨[], by simp⟩

theorem retryLoop_sent_get (env : Env) (q : Question) (srv : List String) :
    ∀ (n : Nat) (res : Exchanged) (sent : List String) (m : Nat),
      m < n → res.err.isSome →
      (∀ j, j < m →
        failing (env.ExchangeContext (sent.length + j) q (index srv ((n - j) % srv.length)))) →
      (retryLoop env q srv n res sent).2[sent.length + m]?
        = some (index srv ((n - m) % srv.length)) := by
  intro n
  induction n with
  | zero => intro res sent m hm; omega
  | succ n ih =>
    intro res sent m hm herr hfail
    rw [retryLoop]
    simp only [herr, if_true]
    cases m with
    | zero =>
      split_ifs
      · simp
      · obtain ⟨tail, ht⟩ := retryLoop_sent_extends env q srv n
          (env.ExchangeContext sent.length q (index srv ((n + 1) % srv.length)))
          (sent ++ [index srv ((n + 1) % srv.length)])
        rw [ht, List.append_assoc, List.getElem?_append_right (by omega)]
        simp
    | succ m =>
      have h0 := hfail 0 (by omega)
      simp only [Nat.add_zero, Nat.sub_zero] at h0
      obtain ⟨hresp, herr0⟩ := h0
      have herr1 : (env.ExchangeContext sent.length q
          (index srv ((n + 1) % srv.length))).err.isSome := by
        cases h : (env.ExchangeContext sent.length q (index srv ((n + 1) % srv.length))).err with
        | none => exact absurd h herr0
        | some e => rfl
      simp only [hresp, Option.isSome_none, Bool.false_eq_true, if_false]
      have key := ih (env.ExchangeContext sent.length q (index srv ((n + 1) % srv.length)))
        (sent ++ [index srv ((n + 1) % srv.length)]) m (by omega) herr1
        (fun j hj => by
          have := hfail (j + 1) (by omega)
          rw [show sent.length + (j + 1) = (sent ++ [index srv ((n + 1) % srv.length)]).length + j
            by simp; omega, show n + 1 - (j + 1) = n - j by omega] at this
          exact this)
      rw [show (sent ++ [index srv ((n + 1) % srv.length)]).length + m = sent.length + (m + 1)
        by simp; omega] at key
      rw [key, show n + 1 - (m + 1) = n - m by omega]

theorem retryLoop_all_fail (env : Env) (q : Question) (srv : List String)
    (hall : ∀ t s, failing (env.ExchangeContext t q s)) :
    ∀ (n : Nat) (res : Exchanged) (sent : List String),
      failing res →
      (retryLoop env q srv n res sent).1.resp = none
      ∧ (retryLoop env q srv n res sent).2.length = sent.length + n := by
  intro n
  induction n with
  | zero => intro res sent hres; exact ⟨by simpa [retryLoop] using hres.1, by simp [retryLoop]⟩
  | succ n ih =>
    intro res sent hres
    have herr : res.err.isSome := by
      cases h : res.err with
      | none => exact absurd h hres.2
      | some e => rfl
    have hnext := hall sent.length (index srv ((n + 1) % srv.length))
    rw [retryLoop]
    simp only [herr, if_true, hnext.1, Option.isSome_none, Bool.false_eq_true, if_false]
    obtain ⟨h1, h2⟩ := ih (env.ExchangeContext sent.length q (index srv ((n + 1) % srv.length)))
      (sent ++ [index srv ((n + 1) % srv.length)]) hnext
    refine ⟨h1, ?_⟩
    rw [h2]
    simp
    omega

theorem retryLoop_last (env : Env) (q : Question) (srv : List String) :
    ∀ (n : Nat) (res : Exchanged) (sent : List String),
      res = env.ExchangeContext (sent.length - 1) q (sent.getLast?.getD "") → sent ≠ [] →
      (retryLoop env q srv n res sent).1
        = env.ExchangeContext ((retryLoop env q srv n res sent).2.length - 1) q
            ((retryLoop env q srv n res sent).2.getLast?.getD "") := by
  intro n
  induction n with
  | zero => intro res sent hres _; simpa [retryLoop] using hres
  | succ n ih =>
    intro res sent hres hne
    rw [retryLoop]
    by_cases herr : res.err.isSome
    · simp only [herr, if_true]
      split_ifs
      · simp
      · exact ih _ _ (by simp) (by simp)
    · simp only [herr]
      simpa using hres

/-! ## Properties of `Resolve` -/

/-- The `switch record` of `Resolve` builds a question exactly for the records
A, CNAME and NS, and for PTR with a host `reverse` accepts. -/
theorem buildQuestion_ok_iff (env : Env) (record host : String) :
    (∃ q, buildQuestion env record host = Except.ok q)
      ↔ (record = "A" ∨ record = "CNAME" ∨ record = "NS"
          ∨ (record = "PTR" ∧ (reverse env host).2 = none)) := by
  unfold buildQuestion
  by_cases hA : record = "A"
  · simp [hA]
  · by_cases hC : record = "CNAME"
    · simp [hC]
    · by_cases hP : record = "PTR"
      · subst hP
        rcases h : reverse env host with ⟨name, _ | e⟩ <;> simp
      · by_cases hN : record = "NS"
        · simp [hN]
        · simp [hA, hC, hP, hN]

theorem Resolve_eq (env : Env) (record host : String) (r : Int) (srv : List String)
    (q : Question) (hq : buildQuestion env record host = Except.ok q) (hsrv : srv ≠ []) :
    Resolve env record host r srv
      = match (retryLoop env q srv r.toNat (env.ExchangeContext 0 q (index srv 0))
            [index srv 0]).1.resp with
        | none =>
          { dst := [], err := some Error.ErrNoResponse,
            sent := (retryLoop env q srv r.toNat (env.ExchangeContext 0 q (index srv 0))
              [index srv 0]).2 }
        | some m =>
          { dst := decodeAnswer m.Answer [], err := none,
            sent := (retryLoop env q srv r.toNat (env.ExchangeContext 0 q (index srv 0))
              [index srv 0]).2 } := by
  have hlen : ¬ srv.length = 0 := by
    intro h
    exact hsrv (List.length_eq_zero.mp h)
  unfold Resolve
  simp only [hlen, if_false, hq]

theorem Resolve_sent (env : Env) (record host : String) (r : Int) (srv : List String)
    (q : Question) (hq : buildQuestion env record host = Except.ok q) (hsrv : srv ≠ []) :
    (Resolve env record host r srv).sent
      = (retryLoop env q srv r.toNat (env.ExchangeContext 0 q (index srv 0)) [index srv 0]).2 := by
  rw [Resolve_eq env record host r srv q hq hsrv]
  split <;> rfl

/-- C3 (counterexample): with three servers, two retries and every exchange
failing, the attempt with index 1 is sent to `servers[2]`, not to
`servers[1 mod 3]`, and the attempt with index 2 to `servers[1]`, not to
`servers[2 mod 3]`. -/
theorem Resolve_retry_order_counterexample :
    (Resolve deadEnv "A" "scanme.nmap.org" 2 ["s0", "s1", "s2"]).sent = ["s0", "s2", "s1"]
    ∧ ¬ ((Resolve deadEnv "A" "scanme.nmap.org" 2 ["s0", "s1", "s2"]).sent[1]?
          = some (index ["s0", "s1", "s2"] (1 % 3)))
    ∧ ¬ ((Resolve deadEnv "A" "scanme.nmap.org" 2 ["s0", "s1", "s2"]).sent[2]?
          = some (index ["s0", "s1", "s2"] (2 % 3))) := by
  decide

/-- C3 (amended): for every record and host for which `Resolve` builds a
question (A, CNAME, NS, and PTR with a valid address), every non-empty server
list of length `n` and every retry budget `r >= 0`, the first attempt is sent
to `servers[0]` and, while attempts keep failing, the attempt with 0-based
index `k` (`1 <= k <= r`) is sent to `servers[(r + 1 - k) mod n]`: the index is
the number of retries still left.  In particular for servers `[bad, good]` and
`r = 1`, when the attempt against `bad` fails and `good` answers with the
message `m`, `Resolve` queries `bad` then `good` and returns the decoded answer
of `m` with a nil error. -/
theorem Resolve_retry_order (env : Env) (record host : String) (r : Nat) (srv : List String)
    (q : Question) (hq : buildQuestion env record host = Except.ok q) (hsrv : srv ≠ []) :
    (Resolve env record host (r : Int) srv).sent[0]? = some (index srv 0)
    ∧ (∀ k, 1 ≤ k → k ≤ r →
        (∀ t, t < k → failing (env.ExchangeContext t q
          (index srv (if t = 0 then 0 else (r + 1 - t) % srv.length)))) →
        (Resolve env record host (r : Int) srv).sent[k]?
          = some (index srv ((r + 1 - k) % srv.length)))
    ∧ (∀ (bad good : String) (m : Msg) (e : Option Error),
        srv = [bad, good] → r = 1 →
        failing (env.ExchangeContext 0 q bad) →
        env.ExchangeContext 1 q good = { resp := some m, err := e } →
        Resolve env record host (r : Int) srv
          = { dst := decodeAnswer m.Answer [], err := none, sent := [bad, good] }) := by
  refine ⟨?_, ?_, ?_⟩
  · rw [Resolve_sent env record host r srv q hq hsrv]
    obtain ⟨tail, ht⟩ := retryLoop_sent_extends env q srv (r : Int).toNat
      (env.ExchangeContext 0 q (index srv 0)) [index srv 0]
    rw [ht]
    simp
  · intro k hk1 hkr hfail
    rw [Resolve_sent env record host r srv q hq hsrv, Int.toNat_ofNat]
    have h0 := hfail 0 (by omega)
    simp only [if_true] at h0
    have herr : (env.ExchangeContext 0 q (index srv 0)).err.isSome := by
      cases h : (env.ExchangeContext 0 q (index srv 0)).err with
      | none => exact absurd h h0.2
      | some e => rfl
    have key := retryLoop_sent_get env q srv r (env.ExchangeContext 0 q (index srv 0))
      [index srv 0] (k - 1) (by omega) herr (fun j hj => by
        have := hfail (j + 1) (by omega)
        rw [if_neg (by omega), show r + 1 - (j + 1) = r - j by omega] at this
        rw [show [index srv 0].length + j = j + 1 by simp; omega]
        exact this)
    rw [show [index srv 0].length + (k - 1) = k by simp; omega,
      show r - (k - 1) = r + 1 - k by omega] at key
    exact key
  · intro bad good m e hs hr hbad hgood
    subst hs
    subst hr
    have hbad0 : (env.ExchangeContext 0 q (index [bad, good] 0)) = env.ExchangeContext 0 q bad :=
      rfl
    have herr : (env.ExchangeContext 0 q bad).err.isSome := by
      cases h : (env.ExchangeContext 0 q bad).err with
      | none => exact absurd h hbad.2
      | some e => rfl
    have hrun : retryLoop env q [bad, good] 1 (env.ExchangeContext 0 q bad) [bad]
        = ({ resp := some m, err := e }, [bad, good]) := by
      rw [retryLoop]
      simp only [herr, if_true]
      have hserver : index [bad, good] ((0 + 1) % [bad, good].length) = good := rfl
      rw [hserver]
      have hlen : [bad].length = 1 := rfl
      rw [hlen, hgood]
      simp
    rw [Resolve_eq env record host _ [bad, good] q hq hsrv, hbad0]
    have hidx : index [bad, good] 0 = bad := rfl
    simp only [Nat.cast_one, Int.toNat_one, hidx, hrun]

/-- C3 witness: servers `[127.0.0.1:0, 8.8.8.8:53]` and one retry, the case of
the test "one valid and one invalid DNS server". -/
theorem Resolve_retry_order_witness :
    Resolve failoverEnv "CNAME" "hub.github.com" 1 ["127.0.0.1:0", "8.8.8.8:53"]
      = { dst := ["github.map.fastly.net."], err := none,
          sent := ["127.0.0.1:0", "8.8.8.8:53"] } :=
  (Resolve_retry_order failoverEnv "CNAME" "hub.github.com" 1 ["127.0.0.1:0", "8.8.8.8:53"]
    { Name := "hub.github.com.", Qtype := QType.TypeCNAME } rfl (by decide)).2.2
    "127.0.0.1:0" "8.8.8.8:53" { Answer := [RR.CNAME "github.map.fastly.net."] } none
    rfl rfl (by decide) (by decide)

/-- C4 (the code departs from the claim): with one retry and servers
`[s0, s1]`, when the first attempt returns a response message together with an
error, `Resolve` still sends a second query (to `s1`); that query times out, and
`Resolve` returns `ErrNoResponse` instead of decoding the response it had
received.  With no retry left the same first response is decoded. -/
theorem Resolve_retries_after_first_response :
    (flakyEnv.ExchangeContext 0 { Name := "scanme.nmap.org.", Qtype := QType.TypeA } "s0").resp
      = some { Answer := [RR.A 45 33 32 156] }
    ∧ Resolve flakyEnv "A" "scanme.nmap.org" 1 ["s0", "s1"]
      = { dst := [], err := some Error.ErrNoResponse, sent := ["s0", "s1"] }
    ∧ Resolve flakyEnv "A" "scanme.nmap.org" 0 ["s0", "s1"]
      = { dst := ["45.33.32.156"], err := none, sent := ["s0"] } := by
  decide

/-- C5 (counterexample): the only attempt returns a response message together
with a non-nil error, and `Resolve` returns the decoded list with a nil
error. -/
theorem Resolve_error_propagation_counterexample :
    malformedEnv.ExchangeContext 0 { Name := "hub.github.com.", Qtype := QType.TypeCNAME }
        "8.8.8.8:53"
      = { resp := some { Answer := [RR.CNAME "github.map.fastly.net."] },
          err := some (Error.transport "bad rdata") }
    ∧ Resolve malformedEnv "CNAME" "hub.github.com" 0 ["8.8.8.8:53"]
      = { dst := ["github.map.fastly.net."], err := none, sent := ["8.8.8.8:53"] }
    ∧ (Resolve malformedEnv "CNAME" "hub.github.com" 0 ["8.8.8.8:53"]).err
      ≠ some (Error.transport "bad rdata") := by
  decide

/-- C5 (amended): for every record and host for which `Resolve` builds a
question, every non-empty server list and every retry budget, if the last
exchange attempt `Resolve` makes returns a response message `m` together with a
non-nil error `e`, then `Resolve` drops `e`: it returns the decoded answer list
of `m` with a nil error. -/
theorem Resolve_drops_exchange_error (env : Env) (record host : String) (r : Int)
    (srv : List String) (q : Question) (m : Msg) (e : Error)
    (hq : buildQuestion env record host = Except.ok q) (hsrv : srv ≠ [])
    (hlast : env.ExchangeContext ((Resolve env record host r srv).sent.length - 1) q
        ((Resolve env record host r srv).sent.getLast?.getD "")
      = { resp := some m, err := some e }) :
    (Resolve env record host r srv).dst = decodeAnswer m.Answer []
    ∧ (Resolve env record host r srv).err = none := by
  rw [Resolve_sent env record host r srv q hq hsrv] at hlast
  have hfin := retryLoop_last env q srv r.toNat (env.ExchangeContext 0 q (index srv 0))
    [index srv 0] (by simp) (by simp)
  rw [hlast] at hfin
  rw [Resolve_eq env record host r srv q hq hsrv, hfin]
  exact ⟨rfl, rfl⟩

/-- C5 witness: a malformed answer to the only attempt. -/
theorem Resolve_drops_exchange_error_witness :
    (Resolve malformedEnv "CNAME" "hub.github.com" 0 ["8.8.8.8:53"]).dst
      = decodeAnswer [RR.CNAME "github.map.fastly.net."] []
    ∧ (Resolve malformedEnv "CNAME" "hub.github.com" 0 ["8.8.8.8:53"]).err = none :=
  Resolve_drops_exchange_error malformedEnv "CNAME" "hub.github.com" 0 ["8.8.8.8:53"]
    { Name := "hub.github.com.", Qtype := QType.TypeCNAME }
    { Answer := [RR.CNAME "github.map.fastly.net."] } (Error.transport "bad rdata")
    rfl (by decide) (by decide)

/-- C6: for every record and host for which `Resolve` builds a question (A,
CNAME, NS, and PTR with a valid IPv4 address), every non-empty server list and
every retry budget `r >= 0`, if every exchange attempt returns no response
message and an error, then `Resolve` makes exactly `r + 1` attempts and returns
a nil list together with the error `ErrNoResponse`. -/
theorem Resolve_no_response (env : Env) (record host : String) (r : Nat) (srv : List String)
    (q : Question) (hq : buildQuestion env record host = Except.ok q) (hsrv : srv ≠ [])
    (hall : ∀ t s, failing (env.ExchangeContext t q s)) :
    (Resolve env record host (r : Int) srv).dst = []
    ∧ (Resolve env record host (r : Int) srv).err = some Error.ErrNoResponse
    ∧ (Resolve env record host (r : Int) srv).sent.length = r + 1 := by
  obtain ⟨h1, h2⟩ := retryLoop_all_fail env q srv hall r (env.ExchangeContext 0 q (index srv 0))
    [index srv 0] (hall 0 _)
  rw [Resolve_eq env record host r srv q hq hsrv, Int.toNat_ofNat, h1]
  refine ⟨rfl, rfl, ?_⟩
  show (retryLoop env q srv r (env.ExchangeContext 0 q (index srv 0)) [index srv 0]).2.length = _
  rw [h2]
  simp
  omega

/-- C6 witness: a PTR query for `8.8.8.8` with one retry against two servers
that never answer. -/
theorem Resolve_no_response_witness :
    (Resolve deadEnv "PTR" "8.8.8.8" ((1 : Nat) : Int) ["127.0.0.1:0", "127.0.0.1:0"]).dst = []
    ∧ (Resolve deadEnv "PTR" "8.8.8.8" ((1 : Nat) : Int) ["127.0.0.1:0", "127.0.0.1:0"]).err
      = some Error.ErrNoResponse
    ∧ (Resolve deadEnv "PTR" "8.8.8.8" ((1 : Nat) : Int)
        ["127.0.0.1:0", "127.0.0.1:0"]).sent.length = 1 + 1 :=
  Resolve_no_response deadEnv "PTR" "8.8.8.8" 1 ["127.0.0.1:0", "127.0.0.1:0"]
    { Name := "8.8.8.8.in-addr.arpa.", Qtype := QType.TypePTR } rfl (by decide)
    (fun _ _ => by simp [failing, deadEnv])

/-! ## Properties of the goroutines of `ResolveList` -/

theorem reachable_mem_of_closed (cfg : Config) (states : List Machine) (start : Machine)
    (hstart : start ∈ states)
    (hclosed : ∀ s, s ∈ states → ∀ t, t ∈ next cfg s → t ∈ states) :
    ∀ s, Reachable cfg start s → s ∈ states := by
  intro s hs
  induction hs with
  | here => exact hstart
  | step _ hu ih => exact hclosed _ ih _ hu

/-- The guards of `ResolveList`: with no domain, or with no server, the call
returns its error at once and `close(out)` has run exactly once. -/
theorem ResolveList_guards (r : Resolver) (domains servers : List String) :
    ResolveListStart r [] servers
      = { dispatcher := Dispatcher.returned (some Error.noDomains), workers := [], closes := 1,
          results := [] }
    ∧ ResolveListStart r (domains ++ ["scanme.nmap.org"]) []
      = { dispatcher := Dispatcher.returned (some Error.noServers), workers := [], closes := 1,
          results := [] } := by
  constructor
  · rfl
  · simp [ResolveListStart]

/-- A call that succeeds: one worker, one domain that resolves.  Whatever the
interleaving, the run can only stop with `ResolveList` returned without error,
`close(out)` run exactly once and the result delivered. -/
theorem ResolveList_success_example :
    ∀ s, Reachable successConfig successStart s → next successConfig s = [] →
      s = { dispatcher := Dispatcher.returned none, workers := [Worker.exited], closes := 1,
            results := [("hub.github.com", ["github.map.fastly.net."])] } := by
  intro s hs
  have hall : ∀ t, t ∈ explore successConfig 8 [successStart] → next successConfig t = [] →
      t = { dispatcher := Dispatcher.returned none, workers := [Worker.exited], closes := 1,
            results := [("hub.github.com", ["github.map.fastly.net."])] } := by
    decide
  exact hall s (reachable_mem_of_closed successConfig (explore successConfig 8 [successStart])
    successStart (by decide) (by decide) s hs)

/-- C7 (the code departs from the claim): one domain, one worker and a record
`Resolve` rejects ("TXT").  The worker reaches `errs <- err` only after the
dispatcher has passed its only `select`; whatever the interleaving, no
reachable state has `ResolveList` returned or `out` closed, the only state in
which the run can stop has the dispatcher blocked in `wg.Wait()` and the worker
blocked sending on `errs`, and that state is reached. -/
theorem ResolveList_hard_error_deadlock :
    hardErrorConfig.outcome "scanme.nmap.org" = Outcome.hard Error.invalidRecord
    ∧ (∀ s, Reachable hardErrorConfig hardErrorStart s → s.closes = 0 ∧ hasReturned s = false)
    ∧ (∀ s, Reachable hardErrorConfig hardErrorStart s → next hardErrorConfig s = [] →
        s = { dispatcher := Dispatcher.waiting,
              workers := [Worker.sendingErr Error.invalidRecord], closes := 0, results := [] })
    ∧ Reachable hardErrorConfig hardErrorStart
        { dispatcher := Dispatcher.waiting,
          workers := [Worker.sendingErr Error.invalidRecord], closes := 0, results := [] } := by
  have hmem := reachable_mem_of_closed hardErrorConfig (explore hardErrorConfig 8 [hardErrorStart])
    hardErrorStart (by decide) (by decide)
  have hopen : ∀ t, t ∈ explore hardErrorConfig 8 [hardErrorStart] →
      t.closes = 0 ∧ hasReturned t = false := by
    decide
  have hstop : ∀ t, t ∈ explore hardErrorConfig 8 [hardErrorStart] →
      next hardErrorConfig t = [] →
      t = { dispatcher := Dispatcher.waiting,
            workers := [Worker.sendingErr Error.invalidRecord], closes := 0, results := [] } := by
    decide
  refine ⟨by decide, fun s hs => hopen s (hmem s hs), fun s hs => hstop s (hmem s hs), ?_⟩
  refine Reachable.step (Reachable.step (Reachable.step (Reachable.step Reachable.here
    (u := { dispatcher := Dispatcher.sending 0, workers := [Worker.start], closes := 0,
            results := [] }) (by decide))
    (u := { dispatcher := Dispatcher.sending 0, workers := [Worker.receiving], closes := 0,
            results := [] }) (by decide))
    (u := { dispatcher := Dispatcher.waiting, workers := [Worker.resolving "scanme.nmap.org"],
            closes := 0, results := [] }) (by decide))
    (by decide)

end DNSResolver
